import Mathlib

/-!
# Verification of the Semantic Triager feedback core

A shallow embedding of the feedback-triage worker (`src/index.ts`):
the classification normalizer, the ingestion pipeline with its
deduplication check, the similarity-search threshold filter, the
triage actions (escalate, acknowledge, resolve, reopen, add-note,
bulk transitions), and the per-category aggregation.

Modelling conventions:
* JavaScript numbers are modelled as `ℚ` (exact rational arithmetic in
  place of IEEE doubles).
* A parsed JSON value is the inductive `JsonVal`; an absent object
  field is `Option.none`.
* External calls that may throw (the classifier, the record-store
  INSERT, the embedding/vector-store calls) are modelled by explicit
  per-item outcome oracles (`Except`/`Bool` fields), so that the
  control flow of the handlers around those calls is preserved.
* JavaScript string→number coercion (`Number(...)`) is modelled for
  the common decimal forms; exotic forms (hex, exponent, objects) are
  approximated as NaN (`none`).  No theorem below depends on the
  approximated cases: the downstream clamp bounds the result for
  every possible coercion output.
-/

namespace FeedbackTriage

/-- A parsed JSON value (the result of `JSON.parse` on the classifier
response).  Objects other than the top-level classification object do
not occur in the modelled code paths, so no object constructor is
needed. -/
inductive JsonVal where
  | null : JsonVal
  | bool (b : Bool) : JsonVal
  | num (q : ℚ) : JsonVal
  | str (s : String) : JsonVal
  | arr (xs : List JsonVal) : JsonVal

/-- JavaScript truthiness of an optional field value: `undefined`,
`null`, `false`, `0` and `""` are falsy, everything else (including
`[]`) is truthy.  (`NaN` cannot occur in a value produced by
`JSON.parse`.) -/
def truthy : Option JsonVal → Bool
  | none => false
  | some JsonVal.null => false
  | some (JsonVal.bool b) => b
  | some (JsonVal.num q) => decide (q ≠ 0)
  | some (JsonVal.str s) => decide (s ≠ "")
  | some (JsonVal.arr _) => true

/-- `v || d` on an optional field value, as used by
`parsed.sentiment || 'Neutral'` and friends. -/
def jsOr (v : Option JsonVal) (d : JsonVal) : JsonVal :=
  match v with
  | some x => if truthy (some x) then x else d
  | none => d

/-- Digit run to a natural number (caller guarantees all digits). -/
def natOfDigits (cs : List Char) : ℕ :=
  cs.foldl (fun a c => a * 10 + (c.toNat - 48)) 0

/-- JavaScript `Number(s)` for a string, for the plain decimal forms:
optional sign, digits, optional fraction; a whitespace-only string is
`0`; anything else is NaN (`none`).  Exponent and hex forms are
approximated as NaN. -/
def strToNum (s : String) : Option ℚ :=
  let t := s.trim
  if t = "" then some 0 else
  let (neg, cs) :=
    match t.toList with
    | '-' :: cs => (true, cs)
    | '+' :: cs => (false, cs)
    | cs => (false, cs)
  let intCs := cs.takeWhile Char.isDigit
  let rest := cs.dropWhile Char.isDigit
  match rest with
  | [] =>
    if intCs.isEmpty then none
    else
      let q : ℚ := natOfDigits intCs
      some (if neg then -q else q)
  | '.' :: fr =>
    if fr.all Char.isDigit && !(intCs.isEmpty && fr.isEmpty) then
      let q : ℚ := natOfDigits intCs + natOfDigits fr / (10 ^ fr.length)
      some (if neg then -q else q)
    else none
  | _ => none

/-- JavaScript `Number(...)` applied to an optional field value.
`none` in the result stands for NaN.  A non-empty array is
approximated as NaN (in JS it coerces through its string form; no
claim depends on this case — the clamp below bounds the result for
any coercion output). -/
def jsNumber : Option JsonVal → Option ℚ
  | none => none
  | some JsonVal.null => some 0
  | some (JsonVal.bool b) => some (if b then 1 else 0)
  | some (JsonVal.num q) => some q
  | some (JsonVal.str s) => strToNum s
  | some (JsonVal.arr []) => some 0
  | some (JsonVal.arr (_ :: _)) => none

/-- JavaScript decimal formatting of a number, approximated: integers
print exactly; non-integral rationals use Lean's rational printing
(never hit by the repository's data, which only stringifies the
`category` field). -/
def ratToJsString (q : ℚ) : String :=
  if q.den = 1 then toString q.num else toString q

/-- JavaScript `String(...)` coercion, as used by
`String(parsed.category || 'Other')`. -/
def jsToString : JsonVal → String
  | JsonVal.null => "null"
  | JsonVal.bool true => "true"
  | JsonVal.bool false => "false"
  | JsonVal.num q => ratToJsString q
  | JsonVal.str s => s
  | JsonVal.arr xs => String.intercalate "," (xs.attach.map fun x => jsToString x.1)
decreasing_by
  have h := List.sizeOf_lt_of_mem x.2
  simp only [JsonVal.arr.sizeOf_spec]
  omega

/-- The top-level JSON object of a classifier response, field by
field; `none` is an absent field. -/
structure ParsedClassification where
  category : Option JsonVal
  sentiment : Option JsonVal
  urgency : Option JsonVal
  suggestedTeam : Option JsonVal
  keywords : Option JsonVal

/-- The normalized classification result (`FeedbackAnalysis` in the
source).  `sentiment` and `suggestedTeam` are kept as raw JSON values
because the source's `||`-defaulting passes any truthy value through
unvalidated. -/
structure FeedbackAnalysis where
  category : String
  sentiment : JsonVal
  urgency : ℚ
  suggestedTeam : JsonVal
  keywords : List JsonVal

/-- `Math.min(10, Math.max(1, Number(parsed.urgency) || 5))`. -/
def normalizeUrgency (v : Option JsonVal) : ℚ :=
  min 10 (max 1 (match jsNumber v with
    | none => 5
    | some q => if q = 0 then 5 else q))

/-- The field-by-field normalization performed on a successfully
parsed classifier response (the `return { ... }` of
`analyzeFeedback`). -/
def normalizeAnalysis (p : ParsedClassification) : FeedbackAnalysis :=
  { category := jsToString (jsOr p.category (JsonVal.str "Other"))
    sentiment := jsOr p.sentiment (JsonVal.str "Neutral")
    urgency := normalizeUrgency p.urgency
    suggestedTeam := jsOr p.suggestedTeam (JsonVal.str "product")
    keywords :=
      match p.keywords with
      | some (JsonVal.arr xs) => xs
      | _ => [] }

/-- The fixed fallback returned by `analyzeFeedback`'s catch block. -/
def defaultAnalysis : FeedbackAnalysis :=
  { category := "Other"
    sentiment := JsonVal.str "Neutral"
    urgency := 5
    suggestedTeam := JsonVal.str "product"
    keywords := [] }

/-- `analyzeFeedback`: any failure on the way to a parsed object
(network error, missing braces, unparsable JSON) lands in the catch
block and yields `defaultAnalysis`; a parsed object is normalized
field by field. -/
def analyzeFeedback : Except Unit ParsedClassification → FeedbackAnalysis
  | Except.error _ => defaultAnalysis
  | Except.ok p => normalizeAnalysis p

/-! ## Data model: the persisted feedback store and the vector index -/

/-- Triage status of a feedback record.  The handlers only ever write
these four values into the `status` column. -/
inductive Status where
  | new : Status
  | acknowledged : Status
  | escalated : Status
  | resolved : Status
deriving DecidableEq

/-- One row of the `feedback` table.  `sentiment` and `assignedTeam`
are raw JSON values because the normalizer can store any truthy value
in those columns (see `normalizeAnalysis`). -/
structure FeedbackRecord where
  id : ℕ
  rawText : String
  category : String
  sentiment : JsonVal
  urgencyScore : ℚ
  source : String
  sourceId : String
  author : String
  status : Status
  assignedTeam : JsonVal
  notes : Option String

/-- One entry of the vector index (`VECTORIZE.upsert` payload). -/
structure VectorEntry where
  id : String
  text : String
  category : String
  sentiment : JsonVal
  urgency : ℚ

/-- The store state: the `feedback` table (in insertion order), the
vector index, and the next row id the store will assign
(`last_row_id` of an insert). -/
structure DB where
  records : List FeedbackRecord
  vectors : List VectorEntry
  nextId : ℕ

def emptyDB : DB := { records := [], vectors := [], nextId := 1 }

/-! ## Similarity search (`searchSimilarFeedback`) -/

/-- `// Only return results above 50% similarity` -/
def MIN_SIMILARITY_THRESHOLD : ℚ := 1 / 2

/-- One match returned by the vector store's `query`. -/
structure VectorMatch where
  id : String
  score : ℚ
  metadata : JsonVal

/-- `searchSimilarFeedback`, applied to the outcome of the embedding
generation plus vector-store query (`Except.error` models any thrown
error, caught and turned into `[]`).  On success the matches are
filtered by `m.score >= MIN_SIMILARITY_THRESHOLD`; the source's
subsequent `.map` rebuilds each match from the same three fields, so
it is the identity here. -/
def searchSimilarFeedback : Except Unit (List VectorMatch) → List VectorMatch
  | Except.error _ => []
  | Except.ok ms => ms.filter fun m => MIN_SIMILARITY_THRESHOLD ≤ m.score

/-! ## Triage actions (`/escalate/:id`, `/action/:id`, `/bulk`) -/

/-- `body.notes || null` in the escalate handler: an absent or empty
notes string is stored as NULL. -/
def boundNotes : Option String → Option String
  | some s => if s = "" then none else some s
  | none => none

/-- The `/escalate/:id` handler: a missing record is a 404 with no
write; otherwise one UPDATE sets `status = 'escalated'`,
`assigned_team`, `urgency_score = 10` and `notes` on every row whose
id matches.  The subsequent Slack notification never touches the
store and is omitted. -/
def escalate (db : DB) (id : ℕ) (team : JsonVal) (notes : Option String) :
    Except String DB :=
  if db.records.any (fun r => r.id = id) then
    Except.ok { db with
      records := db.records.map fun r =>
        if r.id = id then
          { r with status := Status.escalated, assignedTeam := team,
                   urgencyScore := 10, notes := boundNotes notes }
        else r }
  else Except.error "Feedback not found"

/-- The `/action/:id` handler: one UPDATE keyed on the action name;
an unknown action runs no statement; the handler unconditionally
responds success (it never checks that the id matches any row). -/
def applyAction (db : DB) (id : ℕ) (action : String) (notes : Option String) :
    Except String DB :=
  Except.ok <|
    if action = "acknowledge" then
      { db with records := db.records.map fun r =>
          if r.id = id then { r with status := Status.acknowledged } else r }
    else if action = "resolve" then
      { db with records := db.records.map fun r =>
          if r.id = id then { r with status := Status.resolved } else r }
    else if action = "reopen" then
      { db with records := db.records.map fun r =>
          if r.id = id then { r with status := Status.new } else r }
    else if action = "add_note" then
      { db with records := db.records.map fun r =>
          if r.id = id then { r with notes := notes } else r }
    else db

/-- `/bulk` with `action = 'acknowledge'`:
`UPDATE feedback SET status = 'acknowledged' WHERE category = ? AND status = 'new'`. -/
def bulkAcknowledge (db : DB) (category : String) : DB :=
  { db with records := db.records.map fun r =>
      if r.category = category ∧ r.status = Status.new then
        { r with status := Status.acknowledged }
      else r }

/-- `/bulk` with `action = 'resolve'`:
`UPDATE feedback SET status = 'resolved' WHERE category = ?`. -/
def bulkResolve (db : DB) (category : String) : DB :=
  { db with records := db.records.map fun r =>
      if r.category = category then { r with status := Status.resolved } else r }

/-! ## Ingestion pipeline (`POST /ingest`) -/

/-- A source feedback item (`MockFeedbackItem`). -/
structure MockFeedbackItem where
  source : String
  id : String
  author : String
  text : String
deriving DecidableEq

/-- One loop iteration's item together with the outcomes of its
external calls: `classifier` is the classification attempt
(`Except.error` = any throw inside `analyzeFeedback`'s try block),
`insertOk` is whether the record-store INSERT succeeds (a failed
INSERT throws out of the loop, which has no try/catch), `indexOk` is
whether the embedding + vector upsert succeeds (`indexFeedback`
catches its own failures). -/
structure ItemRun where
  item : MockFeedbackItem
  classifier : Except Unit ParsedClassification
  insertOk : Bool
  indexOk : Bool

/-- The dedup lookup:
`SELECT id FROM feedback WHERE source = ? AND source_id = ?`. -/
def dedupFound (db : DB) (source sourceId : String) : Bool :=
  db.records.any fun r => r.source = source ∧ r.sourceId = sourceId

/-- The row a successful INSERT appends: `status = 'new'`, the
classification's category/sentiment/urgency, the item's identity
fields, and the suggested team as `assigned_team`. -/
def insertedRecord (db : DB) (item : MockFeedbackItem) (a : FeedbackAnalysis) :
    FeedbackRecord :=
  { id := db.nextId, rawText := item.text, category := a.category,
    sentiment := a.sentiment, urgencyScore := a.urgency,
    source := item.source, sourceId := item.id, author := item.author,
    status := Status.new, assignedTeam := a.suggestedTeam, notes := none }

/-- The INSERT of a new feedback row; returns the new state and the
assigned `last_row_id`. -/
def insertRecord (db : DB) (item : MockFeedbackItem) (a : FeedbackAnalysis) :
    DB × ℕ :=
  ({ db with
      records := db.records ++ [insertedRecord db item a]
      nextId := db.nextId + 1 },
   db.nextId)

/-- `VECTORIZE.upsert` of one entry: replaces an entry with the same
id, otherwise appends. -/
def upsertVector (db : DB) (e : VectorEntry) : DB :=
  if db.vectors.any (fun v => v.id = e.id) then
    { db with vectors := db.vectors.map fun v => if v.id = e.id then e else v }
  else { db with vectors := db.vectors ++ [e] }

/-- `indexFeedback`: on success upserts the embedding with its
metadata snapshot (text truncated to 300 characters); any failure is
caught and swallowed, leaving the store unchanged. -/
def indexFeedback (db : DB) (rid : ℕ) (text category : String)
    (sentiment : JsonVal) (urgency : ℚ) (ok : Bool) : DB :=
  if ok then
    upsertVector db
      { id := toString rid, text := text.take 300, category := category,
        sentiment := sentiment, urgency := urgency }
  else db

/-- The successful tail of one loop iteration: classify, INSERT, and
— `if (result.meta.last_row_id)` is truthy — index the raw text with
its metadata snapshot. -/
def ingestInsertIndex (db : DB) (run : ItemRun) : DB :=
  let a := analyzeFeedback run.classifier
  let ins := insertRecord db run.item a
  if ins.2 ≠ 0 then
    indexFeedback ins.1 ins.2 run.item.text a.category a.sentiment a.urgency
      run.indexOk
  else ins.1

/-- One iteration of the `/ingest` loop.  Returns the new state and
whether the item was counted in `processed`; `Except.error` is an
uncaught throw (the INSERT failing), which aborts the whole loop.
The classification runs before the INSERT in the source; since it is
pure here, folding it into `ingestInsertIndex` is observationally
identical. -/
def ingestItem (db : DB) (run : ItemRun) : Except Unit (DB × Bool) :=
  if dedupFound db run.item.source run.item.id then
    Except.ok (db, false)
  else if run.insertOk then
    Except.ok (ingestInsertIndex db run, true)
  else Except.error ()

/-- The `/ingest` loop over a batch: items processed in order, the
first uncaught throw aborts; on completion the handler returns the
`processed` count. -/
def ingest (db : DB) : List ItemRun → Except Unit (DB × ℕ)
  | [] => Except.ok (db, 0)
  | run :: rest =>
    match ingestItem db run with
    | Except.error e => Except.error e
    | Except.ok (db1, created) =>
      match ingest db1 rest with
      | Except.error e => Except.error e
      | Except.ok (db2, n) => Except.ok (db2, (if created then 1 else 0) + n)

/-! ## Aggregation engine (`getAggregatedInsights`) -/

/-- `ROUND(x, 1)` of SQLite for the non-negative averages that occur
here (half away from zero, i.e. half up), over exact rationals. -/
def roundTenths (q : ℚ) : ℚ := (Rat.floor (q * 10 + 1 / 2) : ℚ) / 10

/-- One row of the `GROUP BY category` query for a given category:
`total`, `new_count`, `avg_urgency` (rounded to one decimal),
per-sentiment counts, and the distinct sources of the group. -/
structure AggregatedInsight where
  category : String
  total : ℕ
  newCount : ℕ
  avgUrgency : ℚ
  positive : ℕ
  negative : ℕ
  neutral : ℕ
  topSources : List String
deriving DecidableEq

/-- The SQL TEXT comparison `sentiment = '<s>'`: a stored value only
matches when it is the exact text (a value of another storage class
never compares equal to TEXT in SQLite). -/
def sentimentIs (v : JsonVal) (s : String) : Bool :=
  match v with
  | JsonVal.str t => t = s
  | _ => false

/-- The aggregate row computed for one category. -/
def insightFor (records : List FeedbackRecord) (c : String) : AggregatedInsight :=
  let group := records.filter fun r => r.category = c
  { category := c
    total := group.length
    newCount := group.countP fun r => r.status = Status.new
    avgUrgency := roundTenths ((group.map fun r => r.urgencyScore).sum / group.length)
    positive := group.countP fun r => sentimentIs r.sentiment "Positive"
    negative := group.countP fun r => sentimentIs r.sentiment "Negative"
    neutral := group.countP fun r => sentimentIs r.sentiment "Neutral"
    topSources := (group.map fun r => r.source).dedup }

/-- `ORDER BY new_count DESC, avg_urgency DESC`: `a` may precede `b`
iff `a` has the larger `newCount`, or equal `newCount` and
`avgUrgency` at least as large (the ordering key uses the rounded
`avg_urgency` output column, as the SQL alias does). -/
def insightOrder (a b : AggregatedInsight) : Prop :=
  b.newCount < a.newCount ∨ (a.newCount = b.newCount ∧ b.avgUrgency ≤ a.avgUrgency)

instance : DecidableRel insightOrder := fun a b => by
  unfold insightOrder; infer_instance

instance : IsTotal AggregatedInsight insightOrder :=
  ⟨fun a b => by
    unfold insightOrder
    rcases lt_trichotomy a.newCount b.newCount with h | h | h
    · exact Or.inr (Or.inl h)
    · rcases le_total b.avgUrgency a.avgUrgency with h2 | h2
      · exact Or.inl (Or.inr ⟨h, h2⟩)
      · exact Or.inr (Or.inr ⟨h.symm, h2⟩)
    · exact Or.inl (Or.inl h)⟩

instance : IsTrans AggregatedInsight insightOrder :=
  ⟨fun a b c hab hbc => by
    unfold insightOrder at *
    rcases hab with h1 | ⟨h1, h1q⟩ <;> rcases hbc with h2 | ⟨h2, h2q⟩
    · exact Or.inl (h2.trans h1)
    · exact Or.inl (by omega)
    · exact Or.inl (by omega)
    · exact Or.inr ⟨h1.trans h2, h2q.trans h1q⟩⟩

/-- `getAggregatedInsights`: one aggregate row per distinct category,
sorted by `new_count DESC, avg_urgency DESC`.  (SQL leaves the order
of the groups before sorting unspecified; `dedup` fixes one such
order.  Every theorem below is stated up to permutation or as a
sortedness property, so the choice is immaterial.) -/
def getAggregatedInsights (records : List FeedbackRecord) : List AggregatedInsight :=
  List.insertionSort insightOrder
    (((records.map fun r => r.category).dedup).map (insightFor records))

/-! ## Concrete states used by the witnesses -/

/-- A persisted record as the pipeline would create it from the first
mock Discord item. -/
def demoRecord : FeedbackRecord :=
  { id := 1, rawText := "App keeps crashing when I try to upload photos.",
    category := "Bug", sentiment := JsonVal.str "Negative", urgencyScore := 8,
    source := "discord", sourceId := "d001", author := "user123",
    status := Status.new, assignedTeam := JsonVal.str "engineering", notes := none }

/-- A one-record store. -/
def demoDB : DB := { records := [demoRecord], vectors := [], nextId := 2 }

/-- A one-record store whose record carries a PM note. -/
def notedDB : DB :=
  { records := [{ demoRecord with notes := some "prior note" }],
    vectors := [], nextId := 2 }

/-- `demoRecord` after an escalation to engineering without notes:
the note column has been overwritten with NULL. -/
def escalatedRecord : FeedbackRecord :=
  { demoRecord with
    status := Status.escalated
    assignedTeam := JsonVal.str "engineering"
    urgencyScore := 10
    notes := none }

/-- The state `notedDB` reaches after `escalate 1 engineering`
without notes. -/
def notedDBAfter : DB :=
  { records := [escalatedRecord], vectors := [], nextId := 2 }

/-- An ingestion item matching `demoRecord`'s dedup key. -/
def demoDupRun : ItemRun :=
  { item := { source := "discord", id := "d001", author := "user123",
              text := "App keeps crashing when I try to upload photos." },
    classifier := Except.error (), insertOk := true, indexOk := true }

/-- An item whose INSERT fails. -/
def failRun : ItemRun :=
  { item := { source := "github", id := "g001", author := "dev-jane",
              text := "TypeError in ImageUpload component" },
    classifier := Except.error (), insertOk := false, indexOk := true }

/-- An item whose classification and indexing fail but whose INSERT
succeeds. -/
def degradedRun : ItemRun :=
  { item := { source := "twitter", id := "t001", author := "@techfan",
              text := "This app is painfully slow." },
    classifier := Except.error (), insertOk := true, indexOk := false }

/-- Two records in two categories for the aggregation witness. -/
def demo8Records : List FeedbackRecord :=
  [demoRecord,
   { id := 2, rawText := "Love the new dashboard redesign!", category := "Praise",
     sentiment := JsonVal.str "Positive", urgencyScore := 2, source := "discord",
     sourceId := "d007", author := "casual_user", status := Status.resolved,
     assignedTeam := JsonVal.str "product", notes := none }]


/-! ## C3: urgency normalization -/

/-- C3, counterexample: the claim says every parsable numeric urgency
is clamped into [1,10], but the number `0` is not clamped (to `1`):
the `|| 5` default fires on the falsy `0` first, so the result is
`5`. -/
theorem urgency_clamp_counterexample :
    ¬ (∀ (p : ParsedClassification) (q : ℚ), jsNumber p.urgency = some q →
        (analyzeFeedback (Except.ok p)).urgency = min 10 (max 1 q)) := by
  intro h
  have h0 := h ⟨none, none, some (JsonVal.num 0), none, none⟩ 0 rfl
  rw [show (analyzeFeedback (Except.ok ⟨none, none, some (JsonVal.num 0), none,
      none⟩)).urgency = 5 from rfl] at h0
  norm_num at h0

/-- C3 (amended): the normalized urgency always lies in [1,10]; a
parsable *nonzero* numeric urgency is clamped into [1,10]; a zero,
unparsable, non-numeric or absent urgency yields 5. -/
theorem urgency_clamp (r : Except Unit ParsedClassification) :
    (1 ≤ (analyzeFeedback r).urgency ∧ (analyzeFeedback r).urgency ≤ 10) ∧
    (∀ p q, r = Except.ok p → jsNumber p.urgency = some q → q ≠ 0 →
      (analyzeFeedback r).urgency = min 10 (max 1 q)) ∧
    (∀ p, r = Except.ok p →
      (jsNumber p.urgency = none ∨ jsNumber p.urgency = some 0) →
      (analyzeFeedback r).urgency = 5) := by
  refine ⟨?_, ?_, ?_⟩
  · cases r with
    | error e =>
      constructor <;> norm_num [analyzeFeedback, defaultAnalysis]
    | ok p =>
      constructor
      · exact le_min (by norm_num) (le_max_left 1 _)
      · exact min_le_left _ _
  · intro p q hr hq hq0
    subst hr
    simp only [analyzeFeedback, normalizeAnalysis, normalizeUrgency, hq, if_neg hq0]
  · intro p hr hcase
    subst hr
    rcases hcase with h | h <;>
      · simp only [analyzeFeedback, normalizeAnalysis, normalizeUrgency, h, if_pos]
        norm_num

/-- Witness for `urgency_clamp` at the classifier output
`urgency = 37`. -/
theorem urgency_clamp_witness :
    (analyzeFeedback (Except.ok ⟨none, none, some (JsonVal.num 37), none,
      none⟩)).urgency = min 10 (max 1 37) :=
  (urgency_clamp _).2.1 _ 37 rfl rfl (by norm_num)

/-! ## C5: sentiment validation -/

/-- C5: evaluation at the failing input.  The claim (and the declared
type of `FeedbackAnalysis.sentiment`) requires any value outside
{Positive, Negative, Neutral} to become "Neutral", but
`parsed.sentiment || 'Neutral'` only replaces *falsy* values: the
truthy string "Angry" is stored unchanged. -/
theorem sentiment_passthrough_at_failing_input :
    (analyzeFeedback (Except.ok ⟨none, some (JsonVal.str "Angry"), none, none,
        none⟩)).sentiment = JsonVal.str "Angry" ∧
      JsonVal.str "Angry" ≠ JsonVal.str "Neutral" := by
  constructor
  · rfl
  · simp

/-! ## C6: similarity threshold -/

/-- C6: the candidates returned for a successful vector query are
exactly the matches scoring at least `MIN_SIMILARITY_THRESHOLD`; a
match scoring exactly the threshold is kept (inclusive boundary); if
every match scores below the threshold nothing is returned. -/
theorem search_threshold (ms : List VectorMatch) :
    (∀ m : VectorMatch, m ∈ searchSimilarFeedback (Except.ok ms) ↔
      m ∈ ms ∧ MIN_SIMILARITY_THRESHOLD ≤ m.score) ∧
    (∀ m ∈ ms, m.score = MIN_SIMILARITY_THRESHOLD →
      m ∈ searchSimilarFeedback (Except.ok ms)) ∧
    ((∀ m ∈ ms, m.score < MIN_SIMILARITY_THRESHOLD) →
      searchSimilarFeedback (Except.ok ms) = []) := by
  refine ⟨?_, ?_, ?_⟩
  · intro m
    simp [searchSimilarFeedback, List.mem_filter]
  · intro m hm hs
    simp [searchSimilarFeedback, List.mem_filter, hm, hs]
  · intro h
    simp only [searchSimilarFeedback]
    rw [List.filter_eq_nil_iff]
    intro m hm
    simp [not_le.mpr (h m hm)]

/-- Witness for `search_threshold`: a single match at exactly the
threshold is returned. -/
theorem search_threshold_witness :
    (⟨"1", 1 / 2, JsonVal.null⟩ : VectorMatch) ∈
      searchSimilarFeedback (Except.ok [⟨"1", 1 / 2, JsonVal.null⟩]) :=
  (search_threshold [⟨"1", 1 / 2, JsonVal.null⟩]).2.1 _ (by simp) rfl

/-! ## C7: bulk transition scope -/

/-- C7: for every store and every position `i`, `bulkResolve c` sets
the status of the `i`-th record to resolved when its category is `c`
— whatever its current status — and leaves it untouched otherwise,
while `bulkAcknowledge c` acknowledges the `i`-th record only when
its category is `c` *and* its status is new, and leaves it untouched
otherwise. -/
theorem bulk_scope (db : DB) (c : String) (i : ℕ)
    (h : i < db.records.length)
    (hr : i < (bulkResolve db c).records.length)
    (ha : i < (bulkAcknowledge db c).records.length) :
    ((db.records[i].category = c →
        (bulkResolve db c).records[i] =
          { db.records[i] with status := Status.resolved }) ∧
      (db.records[i].category ≠ c →
        (bulkResolve db c).records[i] = db.records[i])) ∧
    ((db.records[i].category = c ∧ db.records[i].status = Status.new →
        (bulkAcknowledge db c).records[i] =
          { db.records[i] with status := Status.acknowledged }) ∧
      (¬(db.records[i].category = c ∧ db.records[i].status = Status.new) →
        (bulkAcknowledge db c).records[i] = db.records[i])) := by
  refine ⟨⟨?_, ?_⟩, ⟨?_, ?_⟩⟩
  · intro hc
    simp [bulkResolve, hc]
  · intro hc
    simp [bulkResolve, hc]
  · intro hc
    simp [bulkAcknowledge, hc.1, hc.2]
  · intro hc
    simp only [bulkAcknowledge, List.getElem_map]
    rw [if_neg hc]

/-- Witness for `bulk_scope`: resolving the "Bug" category touches
the demo record. -/
theorem bulk_scope_witness :
    (bulkResolve demoDB "Bug").records.get ⟨0, by simp [bulkResolve, demoDB]⟩ =
      { demoRecord with status := Status.resolved } := by
  have h := (bulk_scope demoDB "Bug" 0 (by simp [demoDB])
    (by simp [bulkResolve, demoDB]) (by simp [bulkAcknowledge, demoDB])).1.1 (by rfl)
  simpa [demoDB] using h

/-! ## C10: single-record actions on a missing id -/

/-- C10: for an id matching no record, `acknowledge`, `resolve`,
`reopen` and `add_note` all succeed (the handler never checks row
count, unlike `/escalate`) and leave the store unchanged. -/
theorem action_missing_id_noop (db : DB) (id : ℕ) (notes : Option String)
    (h : ∀ r ∈ db.records, r.id ≠ id) :
    applyAction db id "acknowledge" none = Except.ok db ∧
    applyAction db id "resolve" none = Except.ok db ∧
    applyAction db id "reopen" none = Except.ok db ∧
    applyAction db id "add_note" notes = Except.ok db := by
  have hmap : ∀ f : FeedbackRecord → FeedbackRecord,
      (db.records.map fun r => if r.id = id then f r else r) = db.records := by
    intro f
    have he : ∀ r ∈ db.records, (if r.id = id then f r else r) = r := by
      intro r hrm
      exact if_neg (h r hrm)
    rw [List.map_congr_left he, List.map_id']
  refine ⟨?_, ?_, ?_, ?_⟩ <;> simp [applyAction, hmap]

/-- Witness for `action_missing_id_noop` on a store with no record of
id 99. -/
theorem action_missing_id_noop_witness :
    applyAction demoDB 99 "acknowledge" none = Except.ok demoDB ∧
    applyAction demoDB 99 "resolve" none = Except.ok demoDB ∧
    applyAction demoDB 99 "reopen" none = Except.ok demoDB ∧
    applyAction demoDB 99 "add_note" (some "a note") = Except.ok demoDB :=
  action_missing_id_noop demoDB 99 (some "a note") (by simp [demoDB, demoRecord])

/-! ## C2: escalation -/

/-- C2: escalating a missing id fails with the NotFound error and
commits nothing; escalating an existing record succeeds and leaves
every record of that id with status escalated, the given team and
urgency 10 (regardless of its prior status or urgency), while records
with other ids are untouched. -/
theorem escalate_spec (db : DB) (id : ℕ) (team : JsonVal) (notes : Option String) :
    ((¬ ∃ r ∈ db.records, r.id = id) →
      escalate db id team notes = Except.error "Feedback not found") ∧
    ((∃ r ∈ db.records, r.id = id) →
      ∃ db2, escalate db id team notes = Except.ok db2 ∧
        db2.records.length = db.records.length ∧
        (∃ r ∈ db2.records, r.id = id) ∧
        (∀ r ∈ db2.records, r.id = id →
          r.status = Status.escalated ∧ r.assignedTeam = team ∧
            r.urgencyScore = 10) ∧
        (∀ i (h1 : i < db.records.length) (h2 : i < db2.records.length),
          db.records[i].id ≠ id → db2.records[i] = db.records[i])) := by
  have hany : (db.records.any fun r => r.id = id) = true ↔
      ∃ r ∈ db.records, r.id = id := by
    simp [List.any_eq_true]
  constructor
  · intro hno
    have hb : ¬ (db.records.any fun r => r.id = id) = true := fun hc => hno (hany.mp hc)
    unfold escalate
    rw [if_neg hb]
  · intro hyes
    have hb : (db.records.any fun r => r.id = id) = true := hany.mpr hyes
    refine ⟨{ db with records := db.records.map fun r =>
        if r.id = id then
          { r with status := Status.escalated, assignedTeam := team,
                   urgencyScore := 10, notes := boundNotes notes }
        else r }, ?_, ?_, ?_, ?_, ?_⟩
    · unfold escalate
      rw [if_pos hb]
    · simp
    · rcases hyes with ⟨r, hrm, hrid⟩
      refine ⟨_, List.mem_map_of_mem _ hrm, ?_⟩
      simp [hrid]
    · intro r2 hr2 hid2
      rcases List.mem_map.mp hr2 with ⟨r, hrm, rfl⟩
      by_cases hc : r.id = id
      · simp [hc]
      · rw [if_neg hc] at hid2
        exact absurd hid2 hc
    · intro i h1 h2 hne
      simp only [List.getElem_map]
      rw [if_neg hne]

/-- Witness for `escalate_spec`: escalating id 7 on an empty store is
NotFound. -/
theorem escalate_spec_witness :
    escalate emptyDB 7 (JsonVal.str "security") none =
      Except.error "Feedback not found" :=
  (escalate_spec emptyDB 7 (JsonVal.str "security") none).1 (by simp [emptyDB])

/-! ## C9: escalation without notes -/

/-- C9, counterexample: the claim says escalating without notes
leaves the notes field unchanged, but the handler binds
`body.notes || null` into the UPDATE unconditionally: a record whose
notes were "prior note" ends with NULL notes. -/
theorem escalate_notes_counterexample :
    ¬ (∀ (db db2 : DB) (id : ℕ) (team : JsonVal),
        escalate db id team none = Except.ok db2 →
        db2.records.map (fun r => r.notes) = db.records.map fun r => r.notes) := by
  intro h
  have h2 := h notedDB notedDBAfter 1 (JsonVal.str "engineering") rfl
  rw [show notedDBAfter.records.map (fun r => r.notes) = [none] from rfl,
      show notedDB.records.map (fun r => r.notes) = [some "prior note"] from rfl] at h2
  simp at h2

/-- C9 (amended): escalating an existing record *without* a notes
argument overwrites its notes with NULL (clears them) rather than
leaving them unchanged. -/
theorem escalate_without_notes_clears (db db2 : DB) (id : ℕ) (team : JsonVal)
    (h : escalate db id team none = Except.ok db2) :
    ∀ r ∈ db2.records, r.id = id → r.notes = none := by
  unfold escalate at h
  by_cases hb : (db.records.any fun r => r.id = id) = true
  · rw [if_pos hb] at h
    injection h with h2
    subst h2
    intro r hr hid
    rcases List.mem_map.mp hr with ⟨a, ham, rfl⟩
    by_cases hc : a.id = id
    · simp [hc, boundNotes]
    · rw [if_neg hc] at hid
      exact absurd hid hc
  · rw [if_neg hb] at h
    exact Except.noConfusion h

/-- Witness for `escalate_without_notes_clears` on `notedDB`. -/
theorem escalate_without_notes_clears_witness :
    escalatedRecord.notes = none :=
  escalate_without_notes_clears notedDB notedDBAfter 1 (JsonVal.str "engineering")
    rfl escalatedRecord (by simp [notedDBAfter]) rfl

/-! ## C1 and C4: ingestion pipeline lemmas -/

/-- `indexFeedback` never touches the `feedback` table. -/
theorem indexFeedback_records (db : DB) (rid : ℕ) (t c : String) (s : JsonVal)
    (u : ℚ) (ok : Bool) :
    (indexFeedback db rid t c s u ok).records = db.records := by
  simp only [indexFeedback, upsertVector]
  split_ifs <;> rfl

/-- The records after a successful insert-and-index step are the old
records with the freshly inserted row appended. -/
theorem ingestInsertIndex_records (db : DB) (run : ItemRun) :
    (ingestInsertIndex db run).records =
      db.records ++ [insertedRecord db run.item (analyzeFeedback run.classifier)] := by
  simp only [ingestInsertIndex]
  split_ifs with hrid
  · rw [indexFeedback_records]
    rfl
  · rfl

/-- Case analysis on a non-throwing loop iteration: either the dedup
check fired (state unchanged, not counted) or a row was inserted (and
counted). -/
theorem ingestItem_ok_cases (db : DB) (run : ItemRun) (db1 : DB) (created : Bool)
    (h : ingestItem db run = Except.ok (db1, created)) :
    (dedupFound db run.item.source run.item.id = true ∧ db1 = db ∧
      created = false) ∨
    (dedupFound db run.item.source run.item.id = false ∧
      db1.records = db.records ++
        [insertedRecord db run.item (analyzeFeedback run.classifier)] ∧
      created = true) := by
  unfold ingestItem at h
  by_cases hd : dedupFound db run.item.source run.item.id = true
  · rw [if_pos hd] at h
    injection h with h2
    injection h2 with h3 h4
    exact Or.inl ⟨hd, h3.symm, h4.symm⟩
  · rw [if_neg hd] at h
    by_cases hins : run.insertOk = true
    · rw [if_pos hins] at h
      injection h with h2
      injection h2 with h3 h4
      refine Or.inr ⟨by simpa using hd, ?_, h4.symm⟩
      rw [← h3, ingestInsertIndex_records]
    · rw [if_neg hins] at h
      exact Except.noConfusion h

/-- A deduplicated item leaves the loop iteration as a counted-false
no-op. -/
theorem ingestItem_found (db : DB) (run : ItemRun)
    (h : dedupFound db run.item.source run.item.id = true) :
    ingestItem db run = Except.ok (db, false) := by
  unfold ingestItem
  rw [if_pos h]

/-- Unfolding one non-throwing loop iteration inside `ingest`. -/
theorem ingest_cons_ok (db db1 : DB) (run : ItemRun) (rest : List ItemRun)
    (created : Bool) (h : ingestItem db run = Except.ok (db1, created)) :
    ingest db (run :: rest) =
      match ingest db1 rest with
      | Except.error e => Except.error e
      | Except.ok (db2, n) => Except.ok (db2, (if created then 1 else 0) + n) := by
  simp only [ingest, h]

/-- Unfolding one throwing loop iteration inside `ingest`. -/
theorem ingest_cons_error (db : DB) (run : ItemRun) (rest : List ItemRun)
    (h : ingestItem db run = Except.error ()) :
    ingest db (run :: rest) = Except.error () := by
  simp only [ingest, h]

/-- A deduplicated head item changes neither the state nor the
processed count: the batch behaves as if the item were absent. -/
theorem ingest_skip (db : DB) (run : ItemRun) (rest : List ItemRun)
    (h : dedupFound db run.item.source run.item.id = true) :
    ingest db (run :: rest) = ingest db rest := by
  rw [ingest_cons_ok db db run rest false (ingestItem_found db run h)]
  cases hrest : ingest db rest with
  | error e => rfl
  | ok p =>
    obtain ⟨db2, n⟩ := p
    simp

/-- A completed ingestion only ever appends records. -/
theorem ingest_records_extend (runs : List ItemRun) :
    ∀ (db db2 : DB) (n : ℕ), ingest db runs = Except.ok (db2, n) →
      ∃ ext, db2.records = db.records ++ ext := by
  induction runs with
  | nil =>
    intro db db2 n h
    injection h with h2
    injection h2 with h3 h4
    exact ⟨[], by rw [← h3, List.append_nil]⟩
  | cons run rest ih =>
    intro db db2 n h
    cases hitem : ingestItem db run with
    | error e =>
      cases e
      rw [ingest_cons_error db run rest hitem] at h
      exact Except.noConfusion h
    | ok p =>
      obtain ⟨db1, created⟩ := p
      rw [ingest_cons_ok db db1 run rest created hitem] at h
      cases hrest : ingest db1 rest with
      | error e =>
        rw [hrest] at h
        exact Except.noConfusion h
      | ok p2 =>
        obtain ⟨db2x, n2⟩ := p2
        rw [hrest] at h
        injection h with h2
        injection h2 with h3 h4
        obtain ⟨ext2, he2⟩ := ih db1 db2x n2 hrest
        rcases ingestItem_ok_cases db run db1 created hitem with
          ⟨_, rfl, _⟩ | ⟨_, he1, _⟩
        · exact ⟨ext2, by rw [← h3, he2]⟩
        · exact ⟨[insertedRecord db run.item (analyzeFeedback run.classifier)] ++
            ext2, by rw [← h3, he2, he1, List.append_assoc]⟩

/-- If the records only grew, a found dedup key stays found. -/
theorem dedupFound_mono (db db2 : DB) (s sid : String)
    (hext : ∃ ext, db2.records = db.records ++ ext)
    (h : dedupFound db s sid = true) : dedupFound db2 s sid = true := by
  obtain ⟨ext, he⟩ := hext
  unfold dedupFound at *
  rw [he, List.any_append, h, Bool.true_or]

/-- After a completed ingestion every processed item's dedup key is
present in the final state. -/
theorem ingest_keys (runs : List ItemRun) :
    ∀ (db db2 : DB) (n : ℕ), ingest db runs = Except.ok (db2, n) →
      ∀ run ∈ runs, dedupFound db2 run.item.source run.item.id = true := by
  induction runs with
  | nil =>
    intro db db2 n h run hmem
    exact absurd hmem (List.not_mem_nil _)
  | cons run rest ih =>
    intro db db2 n h r hmem
    cases hitem : ingestItem db run with
    | error e =>
      cases e
      rw [ingest_cons_error db run rest hitem] at h
      exact Except.noConfusion h
    | ok p =>
      obtain ⟨db1, created⟩ := p
      rw [ingest_cons_ok db db1 run rest created hitem] at h
      cases hrest : ingest db1 rest with
      | error e =>
        rw [hrest] at h
        exact Except.noConfusion h
      | ok p2 =>
        obtain ⟨db2x, n2⟩ := p2
        rw [hrest] at h
        injection h with h2
        injection h2 with h3 h4
        subst h3
        rcases List.mem_cons.mp hmem with rfl | hmem2
        · have hk1 : dedupFound db1 r.item.source r.item.id = true := by
            rcases ingestItem_ok_cases db r db1 created hitem with
              ⟨hd, rfl, _⟩ | ⟨_, he1, _⟩
            · exact hd
            · unfold dedupFound
              rw [he1, List.any_append]
              have hone : (([insertedRecord db r.item
                  (analyzeFeedback r.classifier)]).any fun rec =>
                    rec.source = r.item.source ∧ rec.sourceId = r.item.id) =
                  true := by
                simp [insertedRecord]
              rw [hone, Bool.or_true]
          exact dedupFound_mono db1 db2x _ _
            (ingest_records_extend rest db1 db2x n2 hrest) hk1
        · exact ih db1 db2x n2 hrest r hmem2

/-- A batch all of whose dedup keys are already present is a complete
no-op reporting zero processed items. -/
theorem ingest_all_found (runs : List ItemRun) (db : DB)
    (h : ∀ run ∈ runs, dedupFound db run.item.source run.item.id = true) :
    ingest db runs = Except.ok (db, 0) := by
  induction runs with
  | nil => rfl
  | cons run rest ih =>
    rw [ingest_skip db run rest (h run (List.mem_cons_self _ _))]
    exact ih fun r hr => h r (List.mem_cons_of_mem _ hr)

/-- C1: an item whose `(source, sourceId)` pair is already persisted
is skipped — the state is unchanged and the item is not counted — and
after any completed ingestion, re-ingesting a batch with the same
items (whatever the external-call outcomes this time) changes nothing
and reports 0 processed. -/
theorem ingest_dedup_idempotent (db : DB) :
    (∀ (run : ItemRun) (rest : List ItemRun),
      dedupFound db run.item.source run.item.id = true →
      ingest db (run :: rest) = ingest db rest) ∧
    (∀ (runs runs2 : List ItemRun) (db2 : DB) (n : ℕ),
      ingest db runs = Except.ok (db2, n) →
      runs2.map (fun r => r.item) = runs.map (fun r => r.item) →
      ingest db2 runs2 = Except.ok (db2, 0)) := by
  constructor
  · exact fun run rest h => ingest_skip db run rest h
  · intro runs runs2 db2 n h hsame
    apply ingest_all_found
    intro r2 hm2
    have hmm : r2.item ∈ runs.map fun r => r.item := by
      rw [← hsame]
      exact List.mem_map_of_mem _ hm2
    rcases List.mem_map.mp hmm with ⟨r, hrm, hitemeq⟩
    rw [← hitemeq]
    exact ingest_keys runs db db2 n h r hrm

/-- Witness for `ingest_dedup_idempotent`: the mock Discord item
whose key is already stored is skipped. -/
theorem ingest_dedup_idempotent_witness :
    ingest demoDB [demoDupRun] = ingest demoDB [] :=
  (ingest_dedup_idempotent demoDB).1 demoDupRun [] rfl

/-- C4, counterexample to the claim that no per-item failure aborts
the run: a failing INSERT (step 3) throws out of the loop — the batch
is aborted and the remaining item is never attempted, so no processed
count is returned. -/
theorem ingest_abort_counterexample :
    ¬ (∀ (db : DB) (runs : List ItemRun), (ingest db runs).isOk = true) := by
  intro h
  have h2 := h emptyDB [failRun, degradedRun]
  rw [show ingest emptyDB [failRun, degradedRun] = Except.error () from rfl] at h2
  simp [Except.isOk, Except.toBool] at h2

/-- C4 (amended): classification and indexing failures (steps 2 and
4) are isolated — as long as every INSERT succeeds, the run completes
normally whatever the classifier and indexer do; only a persistence
failure (step 3) aborts the run. -/
theorem ingest_isolation (runs : List ItemRun) :
    ∀ db : DB, (∀ run ∈ runs, run.insertOk = true) →
      (ingest db runs).isOk = true := by
  induction runs with
  | nil =>
    intro db h
    rfl
  | cons run rest ih =>
    intro db h
    by_cases hd : dedupFound db run.item.source run.item.id = true
    · rw [ingest_skip db run rest hd]
      exact ih db fun r hr => h r (List.mem_cons_of_mem _ hr)
    · have hins : run.insertOk = true := h run (List.mem_cons_self _ _)
      have hitem : ingestItem db run =
          Except.ok (ingestInsertIndex db run, true) := by
        unfold ingestItem
        rw [if_neg hd, if_pos hins]
      rw [ingest_cons_ok db _ run rest true hitem]
      have hrest := ih (ingestInsertIndex db run)
        fun r hr => h r (List.mem_cons_of_mem _ hr)
      cases hr2 : ingest (ingestInsertIndex db run) rest with
      | error e =>
        rw [hr2] at hrest
        simp [Except.isOk, Except.toBool] at hrest
      | ok p =>
        obtain ⟨db2, n⟩ := p
        rfl

/-- Witness for `ingest_isolation`: an item whose classification and
indexing both fail is still ingested without aborting. -/
theorem ingest_isolation_witness :
    (ingest emptyDB [degradedRun]).isOk = true :=
  ingest_isolation [degradedRun] emptyDB (by
    intro r hr
    rw [List.mem_singleton] at hr
    subst hr
    rfl)

/-! ## C8: aggregation -/

/-- C8: the aggregation result has one insight per distinct category
(its categories are a permutation of the deduplicated category list,
hence distinct and complete); it is sorted with primary key
`newCount` descending and secondary key `avgUrgency` descending; and
each insight's `total`, `newCount` and `avgUrgency` are computed from
its category's group, with `avgUrgency` the mean urgency rounded to
one decimal. -/
theorem insights_spec (records : List FeedbackRecord) :
    List.Sorted insightOrder (getAggregatedInsights records) ∧
    ((getAggregatedInsights records).map fun i => i.category).Perm
      ((records.map fun r => r.category).dedup) ∧
    (∀ ins ∈ getAggregatedInsights records,
      ins.total = (records.filter fun r => r.category = ins.category).length ∧
      ins.newCount = ((records.filter fun r => r.category = ins.category).countP
        fun r => r.status = Status.new) ∧
      ins.avgUrgency = roundTenths
        ((((records.filter fun r => r.category = ins.category).map
             fun r => r.urgencyScore).sum) /
          ((records.filter fun r => r.category = ins.category).length : ℚ))) := by
  refine ⟨List.sorted_insertionSort insightOrder _, ?_, ?_⟩
  · have hperm : (getAggregatedInsights records).Perm
        (((records.map fun r => r.category).dedup).map (insightFor records)) :=
      List.perm_insertionSort insightOrder _
    have hmapped := hperm.map fun i => i.category
    refine hmapped.trans ?_
    rw [List.map_map]
    have hid : ∀ c ∈ (records.map fun r => r.category).dedup,
        ((fun i => i.category) ∘ insightFor records) c = c := fun c _ => rfl
    rw [List.map_congr_left hid, List.map_id']
  · intro ins hins
    have hmem : ins ∈ ((records.map fun r => r.category).dedup).map
        (insightFor records) :=
      (List.perm_insertionSort insightOrder _).mem_iff.mp hins
    rcases List.mem_map.mp hmem with ⟨c, hc, rfl⟩
    exact ⟨rfl, rfl, rfl⟩

/-- Witness for `insights_spec`: the "Bug" insight of the two-record
demo store. -/
theorem insights_spec_witness :
    (insightFor demo8Records "Bug").newCount =
      ((demo8Records.filter fun r =>
          r.category = (insightFor demo8Records "Bug").category).countP
        fun r => r.status = Status.new) :=
  ((insights_spec demo8Records).2.2 (insightFor demo8Records "Bug") (by
    show insightFor demo8Records "Bug" ∈ List.insertionSort insightOrder
      (((demo8Records.map fun r => r.category).dedup).map (insightFor demo8Records))
    apply (List.perm_insertionSort insightOrder _).mem_iff.mpr
    rw [show (demo8Records.map fun r => r.category).dedup = ["Bug", "Praise"] from rfl]
    exact List.mem_map_of_mem _ (List.mem_cons_self _ _))).2.1

end FeedbackTriage
